import Mathlib

/-!
Shallow embedding of the `vault_ressources` crate (modules `path.rs`, `meta.rs`,
`error.rs`, `folder_ressource.rs`, `ressource.rs`).

Modelling conventions:
- `std::path::PathBuf` is modelled as a list of path components (`OsPath`);
  the root location supplied by the caller is itself a component list.
- `PathBuf::add_extension` (std, stabilized `path_add_extension`) appends
  `"." ++ ext` to the final component when the path has a file name and the
  extension is non-empty; it is a no-op on an empty extension.  This is
  modelled by `addExtension` below.
- Asynchronous filesystem calls (`tokio::fs`) are modelled by an environment
  of oracles (`Env`): each oracle gives the outcome the filesystem would
  return for that call.  `std::io::Error` and `serde_json::Error` payloads
  are abstracted as `Nat` codes.  Every effectful function additionally
  returns the list of filesystem actions (`FsAction`) it performed, in
  program order, so that claims about what was (not) written are statable.
- `chrono::Utc::now()` is passed in as an explicit `time : Nat` argument.
- Rust `String` is Lean `String` (directory entries with non-UTF-8 names,
  which `folder_ressource.rs` rejects with `FolderRessourceError::Filename`,
  are not representable in this model).
-/

namespace VaultRessources

/-- Component list standing for a `std::path::PathBuf`. -/
abbrev OsPath := List String

/-- Model of `PathBuf::add_extension` from the Rust standard library: if the
path has a file name (here: is non-empty) and the extension is non-empty, the
final component becomes `component ++ "." ++ ext`; otherwise the path is
unchanged.  Note the argument is appended verbatim after a single dot, so an
argument that itself starts with a dot (as in `path.rs::metadata_path`, which
passes `".meta.json"`) produces a double dot. -/
def addExtension : OsPath → String → OsPath
  | [], _ => []
  | [f], ext => if ext = "" then [f] else [f ++ "." ++ ext]
  | c₁ :: c₂ :: rest, ext => c₁ :: addExtension (c₂ :: rest) ext

/-- `path.rs` line 3: `pub type RessourceId = String;` -/
abbrev RessourceId := String

/-- `path.rs` lines 5-9 and 32-36.  The Rust `RessourcePathComponent::Path`
variant stores a whole `RessourcePath` (a struct of a component vector and a
root `PathBuf`); Lean's mutual blocks do not allow a structure, so the two
fields of that nested `RessourcePath` are inlined into the constructor. -/
inductive RessourcePathComponent where
  | ressource (id : RessourceId)
  | path (components : List RessourcePathComponent) (root : OsPath)

/-- `path.rs` lines 32-36: `pub struct RessourcePath`. -/
structure RessourcePath where
  path : List RessourcePathComponent
  root : OsPath

mutual

/-- `path.rs` lines 11-18: `RessourcePathComponent::resolve`. -/
def RessourcePathComponent.resolve : RessourcePathComponent → List RessourceId
  | .ressource id => [id]
  | .path components _root => resolveComponentsList components

/-- Loop body of `path.rs` lines 53-60 (`resolve_components` iterates the
component vector and appends each component's `resolve()`). -/
def resolveComponentsList : List RessourcePathComponent → List RessourceId
  | [] => []
  | c :: cs => c.resolve ++ resolveComponentsList cs

end

/-- `path.rs` lines 53-60: `RessourcePath::resolve_components`. -/
def RessourcePath.resolve_components (p : RessourcePath) : List RessourceId :=
  resolveComponentsList p.path

/-- `path.rs` lines 62-72: `RessourcePath::resolve_into_ressource_path`. -/
def RessourcePath.resolve_into_ressource_path (p : RessourcePath) : RessourcePath :=
  ⟨p.resolve_components.map RessourcePathComponent.ressource, p.root⟩

/-- `path.rs` lines 74-83: `RessourcePath::resolve`.  Every resolved id —
including the final one — is pushed as the directory-style segment
`"<id>.data"` onto the root. -/
def RessourcePath.resolve (p : RessourcePath) : OsPath :=
  p.root ++ p.resolve_components.map (fun id => id ++ ".data")

/-- `path.rs` lines 38-50: the `Display` impl joins the resolved ids with
`"/"`. -/
def RessourcePath.display (p : RessourcePath) : String :=
  String.intercalate "/" p.resolve_components

/-- `path.rs` lines 85-87: `RessourcePath::push` (`self.path.push(component)`,
no validation of any kind). -/
def RessourcePath.push (p : RessourcePath) (component : RessourcePathComponent) :
    RessourcePath :=
  ⟨p.path ++ [component], p.root⟩

/-- `path.rs` lines 103-105: `RessourcePath::up` (`self.path.pop()`).  Rust
mutates `self` and returns the popped component; the model returns the popped
component together with the shortened path. -/
def RessourcePath.up (p : RessourcePath) :
    Option RessourcePathComponent × RessourcePath :=
  (p.path.getLast?, ⟨p.path.dropLast, p.root⟩)

/-- `path.rs` lines 107-111: `RessourcePath::metadata_path` —
`resolve()` followed by `add_extension(".meta.json")` (argument starts with a
dot, see `addExtension`). -/
def RessourcePath.metadata_path (p : RessourcePath) : OsPath :=
  addExtension p.resolve ".meta.json"

/-- Model of Rust `str::strip_suffix`: `some` of the prefix when the string
ends with the suffix, `none` otherwise (`folder_ressource.rs` line 77). -/
def stripSuffix (s suffix : String) : Option String :=
  if suffix.data.isSuffixOf s.data then
    some ⟨s.data.take (s.data.length - suffix.data.length)⟩
  else none

/-- `meta.rs` lines 13-19: `RessourceMetadata`.  The `chrono::DateTime<Utc>`
timestamp is abstracted as a `Nat`. -/
structure RessourceMetadata where
  data_extension : String
  type_id : String
  time : Nat
  id : RessourceId

/-- Static data of a Rust type implementing `RessourceType` (+
`WritableRessource`): its `id()` and `data_extension()` constants
(`traits.rs` lines 9-11 and 68-75). -/
structure RessourceTypeInfo where
  id : String
  data_extension : String

/-- `folder_ressource.rs` lines 40-44: `FolderRessource` type identity; its
`data_extension()` is `""` (lines 97-99). -/
def folderInfo : RessourceTypeInfo := ⟨"core/folder", ""⟩

/-- `meta.rs` lines 21-26: `MetaRessource<T>` (the `PhantomData<T>` marker
carries no data and is dropped; the `T`-dependence is the `RessourceTypeInfo`
argument of the functions below). -/
structure MetaRessource where
  metadata : RessourceMetadata
  path : RessourcePath

/-- `error.rs` lines 5-11: `WriteDataError`.  The boxed source error is
abstracted as a `Nat` code. -/
structure WriteDataError where
  ressource_type : String
  ressource_path : RessourcePath
  path : OsPath
  error : Nat

/-- `folder_ressource.rs` lines 9-34: `FolderRessourceError`.  IO payloads are
`Nat` codes. -/
inductive FolderRessourceError where
  | checkingForFolder (path : OsPath) (error : Nat)
  | nextEntry (path : OsPath) (error : Nat)
  | creatingFolder (path : OsPath) (error : Nat)
  | filename (path : OsPath) (filename : String)

/-- `error.rs` lines 28-110: `RessourceError`.  Field order follows the Rust
declaration of each variant; `std::io::Error` and `serde_json::Error` are
`Nat` codes.  The only `ReadableRessource` whose load is modelled is
`FolderRessource`, so the boxed `dyn Error` inside `InvalidData` is typed as
`FolderRessourceError` here. -/
inductive RessourceError where
  | metadataIo (error : Nat) (ressource_path : RessourcePath) (path : OsPath)
  | writeMetadataIo (error : Nat) (ressource_path : RessourcePath) (path : OsPath)
  | metadataFormat (error : Nat) (ressource_path : RessourcePath) (path : OsPath)
  | typeMismatch (ressource_path : OsPath) (ressource_type : String)
      (expected_type : String)
  | invalidData (ressource_type : String) (ressource_path : RessourcePath)
      (path : OsPath) (error : FolderRessourceError)
  | writeDataError (e : WriteDataError)
  | deleteMetadataError (data_error : WriteDataError) (error : Nat)
  | ressourceAtRoot (path : OsPath) (ressource_path : RessourcePath)
  | ressourceIdFolded (path : OsPath) (ressource_path : RessourcePath)
      (folded : RessourcePath)
  | parentRessource (path : OsPath) (ressource_path : RessourcePath)
      (folder_error : RessourceError)

/-- One performed filesystem action, recorded in program order.
`writeData` stands for invoking the `WritableRessource` capability at the
data path (its internal filesystem activity belongs to the capability, not to
this crate). -/
inductive FsAction where
  | read (p : OsPath)
  | readDir (p : OsPath)
  | write (p : OsPath) (contents : String)
  | writeData (p : OsPath)
  | removeFile (p : OsPath)

/-- Oracles for the ambient filesystem and for `serde_json::from_str`: each
field gives the outcome of the corresponding external call.  `readDirNames`
yields the file names of the direct entries of a directory (directory-open
and entry-iteration failures are folded into its error case). -/
structure Env where
  readToString : OsPath → Except Nat String
  parseMetadata : String → Except Nat RessourceMetadata
  readDirNames : OsPath → Except Nat (List String)
  writeFile : OsPath → String → Except Nat Unit
  writeData : OsPath → Except Nat Unit
  removeFile : OsPath → Except Nat Unit

/-- `meta.rs` lines 29-58: `MetaRessource::<T>::load`.  Reads
`metadata_path()`, parses, then compares the stored `type_id` with `T::id()`.
The returned action list is exactly the one read. -/
def MetaRessource.load (env : Env) (T : RessourceTypeInfo) (path : RessourcePath) :
    Except RessourceError MetaRessource × List FsAction :=
  (match env.readToString path.metadata_path with
   | .error e => .error (.metadataIo e path path.resolve)
   | .ok s =>
     match env.parseMetadata s with
     | .error e => .error (.metadataFormat e path path.resolve)
     | .ok metadata =>
       if metadata.type_id ≠ T.id then
         .error (.typeMismatch path.resolve metadata.type_id T.id)
       else
         .ok ⟨metadata, path⟩,
   [FsAction.read path.metadata_path])

/-- `meta.rs` lines 60-93: `MetaRessource::<T>::new`.  Pops the terminal
component of a clone of `path` (`(path.up).1` here); `None` is the at-root
error, a `Path` component is the folded-id error, and otherwise the metadata
descriptor is fabricated from `T`'s constants, the clock and the terminal id.
Pure value construction: no filesystem action. -/
def MetaRessource.new (T : RessourceTypeInfo) (time : Nat) (path : RessourcePath) :
    Except RessourceError MetaRessource :=
  match (path.up).1 with
  | none => .error (.ressourceAtRoot path.resolve path)
  | some (.ressource id) => .ok ⟨⟨T.data_extension, T.id, time, id⟩, path⟩
  | some (.path components root) =>
      .error (.ressourceIdFolded path.resolve path ⟨components, root⟩)

/-- `meta.rs` lines 95-100: `MetaRessource::data_path` — `resolve()` +
`add_extension("data")` + `add_extension(data_extension)`. -/
def MetaRessource.data_path (m : MetaRessource) : OsPath :=
  addExtension (addExtension m.path.resolve "data") m.metadata.data_extension

/-- Loop of `folder_ressource.rs` lines 59-80: for each entry name, keep
`strip_suffix(".meta.json")` when it applies. -/
def FolderRessource.readLoop : List String → List String
  | [] => []
  | n :: rest =>
    match stripSuffix n ".meta.json" with
    | some ressource_id => ressource_id :: FolderRessource.readLoop rest
    | none => FolderRessource.readLoop rest

/-- `folder_ressource.rs` lines 46-84: the enumerating
`FolderRessource::read` — list the directory at `path`, keep the names ending
in `".meta.json"` with the suffix stripped. -/
def FolderRessource.read (env : Env) (p : OsPath) :
    Except FolderRessourceError (List String) × List FsAction :=
  (match env.readDirNames p with
   | .error e => .error (.checkingForFolder p e)
   | .ok names => .ok (FolderRessource.readLoop names),
   [FsAction.readDir p])

/-- `ressource.rs` lines 15-33 specialised to `T = FolderRessource` (the one
instantiation `Ressource::new` uses): `Ressource::<FolderRessource>::load` —
load the metadata descriptor, then run the folder's `read` capability on
`data_path()`, wrapping a capability failure as `InvalidData`. -/
def Ressource.loadFolder (env : Env) (path : RessourcePath) :
    Except RessourceError (List String) × List FsAction :=
  match MetaRessource.load env folderInfo path with
  | (.error e, t₁) => (.error e, t₁)
  | (.ok meta_ressource, t₁) =>
    match FolderRessource.read env meta_ressource.data_path with
    | (.error e, t₂) =>
        (.error (.invalidData folderInfo.id path path.resolve e), t₁ ++ t₂)
    | (.ok names, t₂) => (.ok names, t₁ ++ t₂)

/-- Digit of the lowercase hex alphabet, as used by `serde_json`'s `\u00XX`
escapes. -/
def jsonHexDigit (n : Nat) : Char :=
  if n < 10 then Char.ofNat (48 + n) else Char.ofNat (87 + n)

/-- `serde_json`'s string escaping: `"` and `\` get a backslash, the short
escapes `\b \f \n \r \t` are used where they exist, remaining control
characters become `\u00XX`, and every other character is emitted verbatim. -/
def jsonEscapeChar (c : Char) : String :=
  if c = '"' then "\\\""
  else if c = '\\' then "\\\\"
  else if c = '\x08' then "\\b"
  else if c = '\x0c' then "\\f"
  else if c = '\n' then "\\n"
  else if c = '\r' then "\\r"
  else if c = '\t' then "\\t"
  else if c.toNat < 32 then
    "\\u00" ++ String.mk [jsonHexDigit (c.toNat / 16), jsonHexDigit (c.toNat % 16)]
  else String.singleton c

/-- A JSON string literal for `s`. -/
def jsonQuote (s : String) : String :=
  "\"" ++ String.join (s.data.map jsonEscapeChar) ++ "\""

/-- `serde::Serialize` for a `String` field: escaping a string never fails. -/
def serializeString (s : String) : Except Nat String :=
  .ok (jsonQuote s)

/-- `serde::Serialize` for `chrono::DateTime<Utc>`: the timestamp is rendered
through its infallible RFC 3339 `Display`; with timestamps abstracted as
`Nat`, the rendering is abstracted as `toString`, quoted as a JSON string. -/
def serializeTime (t : Nat) : Except Nat String :=
  .ok (jsonQuote (toString t))

/-- `serde_json::to_string` on a `RessourceMetadata` value: the derived
serializer emits the four fields in declaration order, each through its own
(fallible in general) field serializer. -/
def serialize_ressource_metadata (m : RessourceMetadata) : Except Nat String := do
  let f₁ ← serializeString m.data_extension
  let f₂ ← serializeString m.type_id
  let f₃ ← serializeTime m.time
  let f₄ ← serializeString m.id
  pure ("\x7b\"data_extension\":" ++ f₁ ++ ",\"type_id\":" ++ f₂ ++
    ",\"time\":" ++ f₃ ++ ",\"id\":" ++ f₄ ++ "\x7d")

/-- Model of `Result::unwrap` on the serializer result (`ressource.rs` line
58).  Rust panics on the error branch; the theorem for the serializer shows
that branch is unreachable, so the default value returned there is inert. -/
def unwrapOk : Except Nat String → String
  | .ok s => s
  | .error _ => ""

/-- `ressource.rs` lines 35-89: `Ressource::<T>::new`.
Step order as in the source: fabricate the metadata descriptor
(`MetaRessource::new`), re-check for a parent via `up()` on a clone (the
popped clone `parent_ressource` is dead after this check), load **`path`
itself** — not the parent — as a `FolderRessource`, write the serialized
descriptor to `metadata_path()`, invoke the `Writable` capability on
`data_path()`, and on a capability failure delete the metadata file again,
reporting `WriteDataError` when the deletion succeeds and
`DeleteMetadataError` (carrying both causes) when it fails. -/
def Ressource.new (env : Env) (T : RessourceTypeInfo) (time : Nat)
    (path : RessourcePath) : Except RessourceError MetaRessource × List FsAction :=
  match MetaRessource.new T time path with
  | .error e => (.error e, [])
  | .ok meta_ressource =>
    match (path.up).1 with
    | none => (.error (.ressourceAtRoot path.resolve path), [])
    | some _ =>
      match Ressource.loadFolder env path with
      | (.error e, t₁) => (.error (.parentRessource path.resolve path e), t₁)
      | (.ok _, t₁) =>
        let contents := unwrapOk (serialize_ressource_metadata meta_ressource.metadata)
        let t₂ := t₁ ++ [FsAction.write path.metadata_path contents]
        match env.writeFile path.metadata_path contents with
        | .error e => (.error (.writeMetadataIo e path path.resolve), t₂)
        | .ok _ =>
          let data_path := meta_ressource.data_path
          let t₃ := t₂ ++ [FsAction.writeData data_path]
          match env.writeData data_path with
          | .ok _ => (.ok meta_ressource, t₃)
          | .error e =>
            let write_data_error : WriteDataError := ⟨T.id, path, path.resolve, e⟩
            let t₄ := t₃ ++ [FsAction.removeFile path.metadata_path]
            match env.removeFile path.metadata_path with
            | .ok _ => (.error (.writeDataError write_data_error), t₄)
            | .error e₂ =>
                (.error (.deleteMetadataError write_data_error e₂), t₄)

/-- A sample writable resource type (a text payload with extension `txt`),
standing for an arbitrary `T : RessourceType + WritableRessource` in concrete
instantiations. -/
def textInfo : RessourceTypeInfo := ⟨"text", "txt"⟩

/-- Flattening helper: resolving a list of atomic components gives back the
underlying ids. -/
lemma resolveList_map_ressource (ids : List RessourceId) :
    resolveComponentsList (ids.map RessourcePathComponent.ressource) = ids := by
  induction ids with
  | nil => rfl
  | cons h t ih =>
      simp [resolveComponentsList, RessourcePathComponent.resolve, ih]

/-- Claim C10: `resolve_into_ressource_path` yields a path of atomic
`Ressource` components only (its component list is exactly the resolved ids,
each wrapped as an atomic component, over the same root), and its
`resolve_components`, filesystem `resolve` and `Display` form agree with the
original path; applying it a second time is the identity on its result. -/
theorem resolve_into_ressource_path_spec (p : RessourcePath) :
    p.resolve_into_ressource_path.path
        = p.resolve_components.map RessourcePathComponent.ressource
      ∧ p.resolve_into_ressource_path.root = p.root
      ∧ p.resolve_into_ressource_path.resolve_components = p.resolve_components
      ∧ p.resolve_into_ressource_path.resolve = p.resolve
      ∧ p.resolve_into_ressource_path.display = p.display
      ∧ p.resolve_into_ressource_path.resolve_into_ressource_path
          = p.resolve_into_ressource_path := by
  refine ⟨rfl, rfl, ?_, ?_, ?_, ?_⟩ <;>
    simp [RessourcePath.resolve_into_ressource_path, RessourcePath.resolve_components,
      RessourcePath.resolve, RessourcePath.display, resolveList_map_ressource]

/-- Claim C9: serializing a fabricated `RessourceMetadata` descriptor to JSON
never fails, so the unconditional `unwrap` on `serde_json::to_string` in
`Ressource::new` never panics: every field serializer of the descriptor is
infallible. -/
theorem metadata_serialization_infallible (m : RessourceMetadata) :
    (serialize_ressource_metadata m).isOk = true := rfl

/-- Claim C7 counterexample: pushing the empty-string id onto a path is not
an error (the operation cannot fail) and extends the path with an
empty-id component — the empty path grows from zero components to one,
contrary to the claim that empty ids are rejected. -/
theorem push_accepts_empty_id_counterexample :
    RessourcePath.push ⟨[], ["R"]⟩ (.ressource "")
        = ⟨[RessourcePathComponent.ressource ""], ["R"]⟩
      ∧ (RessourcePath.push ⟨[], ["R"]⟩ (.ressource "")).path.length = 1
      ∧ (⟨[], ["R"]⟩ : RessourcePath).path.length = 0 :=
  ⟨rfl, rfl, rfl⟩

/-- Claim C7 as amended: `RessourcePath::push` appends the given component
unconditionally — it performs no validation at all, so empty-string ids (and
arbitrary nested components) are accepted and extend the path. -/
theorem push_appends_unconditionally (p : RessourcePath)
    (c : RessourcePathComponent) :
    (p.push c).path = p.path ++ [c] ∧ (p.push c).root = p.root :=
  ⟨rfl, rfl⟩

/-- Claim C8 counterexample: a path component can be a nested sub-path, and
`MetaRessource::new` on a path whose terminal component is a sub-path fails
with the folded-id error — the folding case is present in the implementation,
contrary to the claim that it is dead design not reproduced. -/
theorem folded_id_error_reachable_counterexample :
    MetaRessource.new textInfo 0 ⟨[.path [.ressource "a"] ["S"]], ["R"]⟩
      = .error (.ressourceIdFolded ["R", "a.data"]
          ⟨[.path [.ressource "a"] ["S"]], ["R"]⟩ ⟨[.ressource "a"], ["S"]⟩) := rfl

/-- Claim C8 as amended: the implementation retains the nested-path component
variant, and whenever the terminal component of a path is a nested sub-path,
creation fails with the folded-id error carrying that sub-path. -/
theorem folded_terminal_component_errors (T : RessourceTypeInfo) (time : Nat)
    (p : RessourcePath) (components : List RessourcePathComponent)
    (root : OsPath) (h : p.path.getLast? = some (.path components root)) :
    MetaRessource.new T time p
      = .error (.ressourceIdFolded p.resolve p ⟨components, root⟩) := by
  simp [MetaRessource.new, RessourcePath.up, h]

/-- Witness for the amended claim C8 at a concrete folded path. -/
theorem folded_terminal_component_errors_witness :
    ([RessourcePathComponent.path [.ressource "x"] ["S"]].getLast?
        = some (RessourcePathComponent.path [.ressource "x"] ["S"]))
      ∧ MetaRessource.new folderInfo 3 ⟨[.path [.ressource "x"] ["S"]], ["Q"]⟩
          = .error (.ressourceIdFolded ["Q", "x.data"]
              ⟨[.path [.ressource "x"] ["S"]], ["Q"]⟩ ⟨[.ressource "x"], ["S"]⟩) :=
  ⟨rfl, folded_terminal_component_errors folderInfo 3
    ⟨[.path [.ressource "x"] ["S"]], ["Q"]⟩ [.ressource "x"] ["S"] rfl⟩

/-- Claim C3 evaluated on the path `["a","b","c"]` rooted at `R`: the code
appends the `.data` segment to the terminal id as well, and
`add_extension(".meta.json")` / the doubled `add_extension("data")` produce
`c.data..meta.json`, `c.data.data.txt` and (empty extension) `c.data.data` —
not the `c.meta.json` / `c.data.txt` layout the claim states. -/
theorem resolved_paths_eval :
    RessourcePath.metadata_path
        ⟨[.ressource "a", .ressource "b", .ressource "c"], ["R"]⟩
        = ["R", "a.data", "b.data", "c.data..meta.json"]
      ∧ MetaRessource.data_path ⟨⟨"txt", "text", 0, "c"⟩,
            ⟨[.ressource "a", .ressource "b", .ressource "c"], ["R"]⟩⟩
          = ["R", "a.data", "b.data", "c.data.data.txt"]
      ∧ MetaRessource.data_path ⟨⟨"", "core/folder", 0, "c"⟩,
            ⟨[.ressource "a", .ressource "b", .ressource "c"], ["R"]⟩⟩
          = ["R", "a.data", "b.data", "c.data.data"] :=
  ⟨rfl, rfl, rfl⟩

/-- Claim C5: creating at the empty (root) path fails with the at-root error
and performs zero filesystem actions — nothing is read, written, created or
deleted before the rejection. -/
theorem create_at_root_rejected_no_writes (env : Env) (T : RessourceTypeInfo)
    (time : Nat) (root : OsPath) :
    Ressource.new env T time ⟨[], root⟩
      = (.error (.ressourceAtRoot root ⟨[], root⟩), []) := by
  simp [Ressource.new, MetaRessource.new, RessourcePath.up, RessourcePath.resolve,
    RessourcePath.resolve_components, resolveComponentsList]

/-- Two strings with the same character data are equal. -/
lemma string_eq_of_data {a b : String} (h : a.data = b.data) : a = b := by
  cases a; cases b; exact congrArg String.mk h

/-- Characterization of the `strip_suffix` model: it yields `some id` exactly
when the scrutinee is `id ++ suffix`. -/
lemma stripSuffix_eq_some_iff (n suffix id : String) :
    stripSuffix n suffix = some id ↔ n = id ++ suffix := by
  constructor
  · intro h
    unfold stripSuffix at h
    split at h
    case isTrue hsuf =>
      obtain ⟨t, ht⟩ := List.isSuffixOf_iff_suffix.mp hsuf
      have hlen : n.data.length - suffix.data.length = t.length := by
        rw [← ht]; simp
      have htake : n.data.take (n.data.length - suffix.data.length) = t := by
        rw [hlen, ← ht, List.take_left]
      have hid : (⟨t⟩ : String) = id := by
        rw [← htake]; exact Option.some.inj h
      apply string_eq_of_data
      rw [String.data_append, ← hid, ht]
    case isFalse => exact absurd h (by simp)
  · intro h
    subst h
    have hsuf : suffix.data.isSuffixOf (id ++ suffix).data = true := by
      rw [String.data_append]
      exact List.isSuffixOf_iff_suffix.mpr (List.suffix_append _ _)
    unfold stripSuffix
    rw [if_pos hsuf]
    congr 1
    apply string_eq_of_data
    simp [String.data_append, List.take_left]

/-- The filter loop of the enumerating folder read equals a `filterMap` of
the `strip_suffix` model over the entry names. -/
lemma readLoop_eq_filterMap (names : List String) :
    FolderRessource.readLoop names
      = names.filterMap (fun n => stripSuffix n ".meta.json") := by
  induction names with
  | nil => rfl
  | cons n rest ih =>
      cases h : stripSuffix n ".meta.json" <;>
        simp [FolderRessource.readLoop, h, ih]

/-- Claim C6: on a listable directory, the enumerating
`FolderRessource::read` returns exactly the entry names that end in
`".meta.json"` with that suffix stripped: it returns the `filterMap` of the
suffix-strip over the entries, and an id is returned precisely when
`id ++ ".meta.json"` is among the entry names (so unrelated files are
excluded and nothing else is included). -/
theorem folder_read_enumerates_meta_suffix (env : Env) (p : OsPath)
    (names : List String) (h : env.readDirNames p = .ok names) :
    (FolderRessource.read env p).1 = .ok (FolderRessource.readLoop names)
      ∧ FolderRessource.readLoop names
          = names.filterMap (fun n => stripSuffix n ".meta.json")
      ∧ ∀ id : String, id ∈ FolderRessource.readLoop names
          ↔ (id ++ ".meta.json") ∈ names := by
  refine ⟨by simp [FolderRessource.read, h], readLoop_eq_filterMap names,
    fun id => ?_⟩
  rw [readLoop_eq_filterMap, List.mem_filterMap]
  constructor
  · rintro ⟨n, hn, hs⟩
    rw [stripSuffix_eq_some_iff] at hs
    exact hs ▸ hn
  · intro hmem
    exact ⟨id ++ ".meta.json", hmem, (stripSuffix_eq_some_iff _ _ _).mpr rfl⟩

/-- Directory oracle for the enumeration example: the directory holds
`p.meta.json`, `q.meta.json` and an unrelated file. -/
def envDir : Env :=
  ⟨fun _ => .error 0,
   fun _ => .error 0,
   fun _ => .ok ["p.meta.json", "q.meta.json", "notes.txt"],
   fun _ _ => .error 0,
   fun _ => .error 0,
   fun _ => .error 0⟩

/-- Witness for claim C6: the example directory yields exactly `[p, q]`. -/
theorem folder_read_enumerates_meta_suffix_witness :
    (FolderRessource.read envDir ["R"]).1 = .ok ["p", "q"] :=
  (folder_read_enumerates_meta_suffix envDir ["R"]
    ["p.meta.json", "q.meta.json", "notes.txt"] rfl).1

/-- Claim C4: `MetaRessource::load` performs exactly one filesystem action —
reading the metadata file — and so writes to no file; it fails with the IO
error when that read fails, with the format error when the bytes do not
parse, and, after a successful parse, fails with the type-mismatch error
(carrying the found and the expected type identity) if and only if the
stored `type_id` differs from the expected type's id, succeeding otherwise. -/
theorem meta_load_error_taxonomy (env : Env) (T : RessourceTypeInfo)
    (path : RessourcePath) :
    (MetaRessource.load env T path).2 = [FsAction.read path.metadata_path]
      ∧ (∀ e, env.readToString path.metadata_path = .error e →
          (MetaRessource.load env T path).1
            = .error (.metadataIo e path path.resolve))
      ∧ (∀ s fe, env.readToString path.metadata_path = .ok s →
          env.parseMetadata s = .error fe →
          (MetaRessource.load env T path).1
            = .error (.metadataFormat fe path path.resolve))
      ∧ (∀ s m, env.readToString path.metadata_path = .ok s →
          env.parseMetadata s = .ok m →
          ((MetaRessource.load env T path).1
              = .error (.typeMismatch path.resolve m.type_id T.id)
            ↔ m.type_id ≠ T.id)
          ∧ (m.type_id = T.id →
              (MetaRessource.load env T path).1 = .ok ⟨m, path⟩)) := by
  refine ⟨rfl, ?_, ?_, ?_⟩
  · intro e h
    simp [MetaRessource.load, h]
  · intro s fe h₁ h₂
    simp [MetaRessource.load, h₁, h₂]
  · intro s m h₁ h₂
    constructor
    · by_cases hm : m.type_id = T.id <;> simp [MetaRessource.load, h₁, h₂, hm]
    · intro hm
      simp [MetaRessource.load, h₁, h₂, hm]

/-- Filesystem oracle in which every metadata file reads back bytes that
parse as a `core/folder` descriptor. -/
def envMismatch : Env :=
  ⟨fun _ => .ok "m",
   fun _ => .ok ⟨"", "core/folder", 0, "x"⟩,
   fun _ => .error 0,
   fun _ _ => .error 0,
   fun _ => .error 0,
   fun _ => .error 0⟩

/-- Witness for claim C4: loading a stored `core/folder` resource while
expecting the `text` type fails with the type-mismatch error carrying both
identities. -/
theorem meta_load_error_taxonomy_witness :
    (MetaRessource.load envMismatch textInfo ⟨[.ressource "x"], ["R"]⟩).1
      = .error (.typeMismatch ["R", "x.data"] "core/folder" "text") :=
  ((meta_load_error_taxonomy envMismatch textInfo
      ⟨[.ressource "x"], ["R"]⟩).2.2.2 "m" ⟨"", "core/folder", 0, "x"⟩
      rfl rfl).1.mpr (by decide)

/-- Filesystem oracle for a fresh create under a valid parent: the parent
`["docs"]` is a fully valid folder resource (its metadata file reads back
bytes that parse as a `core/folder` descriptor and its directory lists), but
the target `["docs","note"]` does not exist yet, so reading the target's
metadata file fails with IO code 404. -/
def envFresh : Env :=
  ⟨fun p => if p = ["R", "docs.data..meta.json"] then .ok "folderjson"
            else .error 404,
   fun s => if s = "folderjson" then .ok ⟨"", "core/folder", 0, "docs"⟩
            else .error 1,
   fun _ => .ok [],
   fun _ _ => .ok (),
   fun _ => .ok (),
   fun _ => .ok ()⟩

/-- Claim C2 evaluated at `create(["docs","note"], ·)` under `envFresh`: the
parent `["docs"]` loads as a perfectly valid folder resource, yet `create`
fails with a parent-resource error wrapping a metadata-IO failure at the
**target** path `["docs","note"]`, and its only filesystem action is reading
the target's own metadata file — the folder check is run on `path` itself,
not on the parent, so creating a not-yet-existing resource cannot succeed. -/
theorem create_checks_target_not_parent :
    (Ressource.loadFolder envFresh ⟨[.ressource "docs"], ["R"]⟩).1 = .ok []
      ∧ Ressource.new envFresh textInfo 0
          ⟨[.ressource "docs", .ressource "note"], ["R"]⟩
        = (.error (.parentRessource ["R", "docs.data", "note.data"]
              ⟨[.ressource "docs", .ressource "note"], ["R"]⟩
              (.metadataIo 404 ⟨[.ressource "docs", .ressource "note"], ["R"]⟩
                ["R", "docs.data", "note.data"])),
           [FsAction.read ["R", "docs.data", "note.data..meta.json"]]) :=
  ⟨rfl, rfl⟩

/-- Inversion of a successful `MetaRessource::new`: the terminal component of
`path` is the atomic id recorded in the descriptor, and the result carries
`T`'s constants, the clock value and the full (unpopped) path. -/
lemma metaRessource_new_ok_inv (T : RessourceTypeInfo) (time : Nat)
    (path : RessourcePath) (meta : MetaRessource)
    (h : MetaRessource.new T time path = .ok meta) :
    (path.up).1 = some (.ressource meta.metadata.id)
      ∧ meta = ⟨⟨T.data_extension, T.id, time, meta.metadata.id⟩, path⟩ := by
  unfold MetaRessource.new at h
  rcases hg : (path.up).1 with _ | c
  · rw [hg] at h
    exact absurd h (by simp)
  · cases c with
    | ressource id =>
        rw [hg] at h
        have hm := Except.ok.inj h
        cases hm
        exact ⟨rfl, rfl⟩
    | path components root =>
        rw [hg] at h
        exact absurd h (by simp)

/-- Claim C1: in a `create` run whose descriptor fabrication, folder load and
metadata write all succeeded and whose payload write failed, the operation
attempts to delete the just-written metadata file; if the deletion succeeds,
`create` returns the original write-data error, and if the deletion fails,
`create` returns the delete-metadata error carrying both the write-data
error and the deletion error — the full action trace in both cases being the
folder-load actions, the metadata write, the payload write and the deletion
attempt. -/
theorem create_rollback_on_write_data_failure
    (env : Env) (T : RessourceTypeInfo) (time : Nat) (path : RessourcePath)
    (meta : MetaRessource) (names : List String) (e : Nat)
    (h₁ : MetaRessource.new T time path = .ok meta)
    (h₂ : (Ressource.loadFolder env path).1 = .ok names)
    (h₃ : env.writeFile path.metadata_path
        (unwrapOk (serialize_ressource_metadata meta.metadata)) = .ok ())
    (h₄ : env.writeData meta.data_path = .error e) :
    FsAction.removeFile path.metadata_path ∈ (Ressource.new env T time path).2
      ∧ (env.removeFile path.metadata_path = .ok () →
          Ressource.new env T time path
            = (.error (.writeDataError ⟨T.id, path, path.resolve, e⟩),
               (Ressource.loadFolder env path).2
                 ++ [FsAction.write path.metadata_path
                       (unwrapOk (serialize_ressource_metadata meta.metadata)),
                     FsAction.writeData meta.data_path,
                     FsAction.removeFile path.metadata_path]))
      ∧ (∀ e₂, env.removeFile path.metadata_path = .error e₂ →
          Ressource.new env T time path
            = (.error (.deleteMetadataError ⟨T.id, path, path.resolve, e⟩ e₂),
               (Ressource.loadFolder env path).2
                 ++ [FsAction.write path.metadata_path
                       (unwrapOk (serialize_ressource_metadata meta.metadata)),
                     FsAction.writeData meta.data_path,
                     FsAction.removeFile path.metadata_path])) := by
  obtain ⟨hg, -⟩ := metaRessource_new_ok_inv T time path meta h₁
  rcases hlf : Ressource.loadFolder env path with ⟨res, tr⟩
  have hres : res = Except.ok names := by rw [← h₂, hlf]
  subst hres
  refine ⟨?_, ?_, ?_⟩
  · rcases hrm : env.removeFile path.metadata_path with e₂ | u
    · simp [Ressource.new, h₁, hg, hlf, h₃, h₄, hrm]
    · simp [Ressource.new, h₁, hg, hlf, h₃, h₄, hrm]
  · intro hok
    simp [Ressource.new, h₁, hg, hlf, h₃, h₄, hok]
  · intro e₂ herr
    simp [Ressource.new, h₁, hg, hlf, h₃, h₄, herr]

/-- Filesystem oracle for a rollback run: metadata reads and writes and file
deletion succeed (every stored descriptor reads back as a valid folder), but
the payload-write capability fails with code 7. -/
def envRoll : Env :=
  ⟨fun _ => .ok "fj",
   fun _ => .ok ⟨"", "core/folder", 0, "docs"⟩,
   fun _ => .ok [],
   fun _ _ => .ok (),
   fun _ => .error 7,
   fun _ => .ok ()⟩

/-- The concrete creation target used in the rollback witness. -/
def pathDocsNote : RessourcePath :=
  ⟨[.ressource "docs", .ressource "note"], ["R"]⟩

/-- Witness for claim C1: under `envRoll` the payload write fails, the
metadata file is deleted again (the deletion appears in the trace after the
two writes), and the original write-data error is surfaced. -/
theorem create_rollback_on_write_data_failure_witness :
    Ressource.new envRoll textInfo 0 pathDocsNote
      = (.error (.writeDataError
            ⟨"text", pathDocsNote, ["R", "docs.data", "note.data"], 7⟩),
         [FsAction.read pathDocsNote.metadata_path,
          FsAction.readDir ["R", "docs.data", "note.data.data"],
          FsAction.write pathDocsNote.metadata_path
            (unwrapOk (serialize_ressource_metadata ⟨"txt", "text", 0, "note"⟩)),
          FsAction.writeData ["R", "docs.data", "note.data.data.txt"],
          FsAction.removeFile pathDocsNote.metadata_path]) :=
  (create_rollback_on_write_data_failure envRoll textInfo 0 pathDocsNote
    ⟨⟨"txt", "text", 0, "note"⟩, pathDocsNote⟩ [] 7 rfl rfl rfl rfl).2.1 rfl

end VaultRessources
